import Mathlib

/-!
Shallow embedding of the audio capture/segmentation core of
`dictate_min.py` / `dictate.py` (whisper-dictation).

An AudioBlock is a list of signed 16-bit mono samples (`List Int`).
`rms_level` embeds the Python `rms_level`; the recorder loop of
`record_once` is embedded as a step function (`recordIter`) driven once
per incoming block, with time measured in milliseconds since loop start:
the block of index `i` is processed at `now = (i+1) * block_ms`, the
cadence at which the 50 ms input stream delivers blocks.  The push-to-talk
recorder's `stop()` is embedded over its queue contents.
-/

namespace Dictation

/-- Mean of squares of the normalized samples of a block, as an exact
rational.  This is the square of the Python `rms_level`: the source
computes `x = block/32768.0` and returns `sqrt(mean(x*x))`, returning
`0.0` for an empty block. -/
def rmsSq (block : List Int) : ℚ :=
  if block.length = 0 then 0
  else ((block.map (fun (s : Int) => ((s : ℚ) / 32768) ^ 2)).sum) / block.length

/-- Embedding of `rms_level` (dictate_min.py lines 67-72): int16 samples
are divided by 32768 and the root-mean-square amplitude is returned;
an empty block yields 0.0. -/
noncomputable def rms_level (block : List Int) : ℝ :=
  Real.sqrt ((rmsSq block : ℚ) : ℝ)

/-- Sum of squared samples of a block (the numerator of `rmsSq` up to
the `32768²` normalization). -/
def sumSq (block : List Int) : ℤ :=
  (block.map (fun s => s * s)).sum

/-- The loop's voice test `level >= silence_rms`, in an executable form:
`thr ≤ √(rmsSq block)` holds iff `thr ≤ 0`, or the block is nonempty and
`thr² ≤ sumSq block / (32768² · length)` after clearing the (positive)
denominators.  Lemma `voiced_iff` proves this Boolean equal to the
source's comparison `silence_rms ≤ rms_level block`. -/
def voiced (thr : ℚ) (block : List Int) : Bool :=
  decide (thr.num ≤ 0) ||
    (decide (0 < block.length) &&
      decide (thr.num ^ 2 * (32768 ^ 2 * (block.length : ℤ)) ≤
        (thr.den : ℤ) ^ 2 * sumSq block))

/-- Block cadence of the capture loop: `block_ms = 50` in `record_once`. -/
def block_ms : ℕ := 50

/-- Configuration surface of `record_once` (its parameters). -/
structure RecCfg where
  samplerate : ℕ
  silence_rms : ℚ
  min_speech_ms : ℕ
  silence_ms_to_stop : ℕ
  max_ms : ℕ
deriving DecidableEq

/-- The CLI defaults of dictate_min.py: samplerate 16000,
silence-rms 0.008 (= 8/1000), min-speech-ms 400, silence-stop-ms 1500,
max-ms 20000. -/
def defaultCfg : RecCfg :=
  { samplerate := 16000
    silence_rms := mkRat 8 1000
    min_speech_ms := 400
    silence_ms_to_stop := 1500
    max_ms := 20000 }

/-- Mutable state of the `record_once` loop: `started`, `last_voice_ts`
(milliseconds since loop start, `none` until voice is first detected),
`collected` and `speech_ms`. -/
structure RecState where
  started : Bool
  last_voice_ts : Option ℕ
  collected : List (List Int)
  speech_ms : ℕ
deriving DecidableEq

/-- Initial state of the loop (dictate_min.py lines 87-108). -/
def initState : RecState :=
  { started := false, last_voice_ts := none, collected := [], speech_ms := 0 }

/-- One iteration of the `record_once` loop body (lines 109-135) on the
block of index `i`, at `now = (i+1) * block_ms` milliseconds after loop
start.  Returns the new state and whether the loop breaks (either the
silence-stop break inside `if started:` or the max-duration break). -/
def recordIter (cfg : RecCfg) (block : List Int) (i : ℕ) (s : RecState) :
    RecState × Bool :=
  let v := voiced cfg.silence_rms block
  let now := (i + 1) * block_ms
  let s1 := if ¬ s.started ∧ v = true then
      { s with started := true, last_voice_ts := some now }
    else s
  if s1.started then
    let lv := if v = true then some now else s1.last_voice_ts
    let s2 : RecState :=
      { started := true, last_voice_ts := lv
        collected := s1.collected ++ [block]
        speech_ms := s1.speech_ms + block_ms }
    let brkSilence :=
      match lv with
      | some t => decide (cfg.silence_ms_to_stop ≤ now - t)
      | none => false
    (s2, brkSilence || decide (cfg.max_ms ≤ now))
  else
    (s1, decide (cfg.max_ms ≤ now))

/-- The `while True` loop of `record_once`, consuming one block of the
stream per iteration (blocks of index `i, i+1, ...`); `fuel` bounds the
number of iterations (`none` means fuel exhausted — the max-duration
break makes `recordFuel` always sufficient). -/
def recordLoop (cfg : RecCfg) (stream : ℕ → List Int) :
    ℕ → ℕ → RecState → Option RecState
  | 0, _, _ => none
  | fuel + 1, i, s =>
    let r := recordIter cfg (stream i) i s
    if r.2 then some r.1 else recordLoop cfg stream fuel (i + 1) r.1

/-- A waveform artifact as handed to `sf.write`: the concatenated sample
sequence together with the sample-rate tag. -/
structure Wav where
  samples : List Int
  rate : ℕ
deriving DecidableEq

/-- ClipEncoder: `np.concatenate(collected, axis=0)` followed by
`sf.write(tmp.name, audio, samplerate)` — the blocks are flattened into
one contiguous sample sequence in order and tagged with the rate. -/
def encodeWav (blocks : List (List Int)) (rate : ℕ) : Wav :=
  { samples := blocks.flatten, rate := rate }

/-- Modelled from the spec: decoding the waveform container written by
the clip encoder (the serialization itself is done by the external
`soundfile` library, not by repository code) yields the stored sample
sequence and the sample-rate tag. -/
def decodeWav (w : Wav) : List Int × ℕ :=
  (w.samples, w.rate)

/-- The post-loop emission decision of `record_once` (lines 137-144):
`if not collected or speech_ms < min_speech_ms: return None`, otherwise
concatenate and write the wav. -/
def finishRecording (cfg : RecCfg) (s : RecState) : Option Wav :=
  if s.collected = [] ∨ s.speech_ms < cfg.min_speech_ms then none
  else some (encodeWav s.collected cfg.samplerate)

/-- Fuel sufficient for the loop: the max-duration break fires at block
index `max_ms / block_ms` at the latest. -/
def recordFuel (cfg : RecCfg) : ℕ := cfg.max_ms / block_ms + 1

/-- Embedding of `record_once`: run the loop on the stream of incoming
blocks, then apply the emission decision.  The outer `Option` is fuel
exhaustion (never happens for `recordFuel`); the inner `Option Wav` is
the function's `Path | None` result, `none` being "nothing captured". -/
def record_once (cfg : RecCfg) (stream : ℕ → List Int) :
    Option (Option Wav) :=
  (recordLoop cfg stream (recordFuel cfg) 0 initState).map (finishRecording cfg)

/-- State of `PushToTalkRecorder`: the recording flag and the pending
queue of blocks put by the callback while the flag is set. -/
structure PushToTalkState where
  flag : Bool
  q : List (List Int)
  samplerate : ℕ
deriving DecidableEq

/-- `PushToTalkRecorder.start`: set the flag and clear stale blocks. -/
def pttStart (r : PushToTalkState) : PushToTalkState :=
  { r with flag := true, q := [] }

/-- The stream callback of `PushToTalkRecorder`: append the block to the
queue only while the flag is set. -/
def pttCallback (r : PushToTalkState) (block : List Int) : PushToTalkState :=
  if r.flag then { r with q := r.q ++ [block] } else r

/-- `PushToTalkRecorder.stop` (dictate_min.py lines 174-184, identically
dictate.py lines 163-173): clear the flag; if the queue is empty return
`None`, else drain the queue, concatenate and write the wav. -/
def pttStop (r : PushToTalkState) : PushToTalkState × Option Wav :=
  let r1 := { r with flag := false }
  if r1.q = [] then (r1, none)
  else ({ r1 with q := [] }, some (encodeWav r1.q r1.samplerate))

/-- A block whose single sample is about 10% of full scale: its RMS level
`3277/32768 ≈ 0.1` is well above the default threshold `0.008`. -/
def loudBlock : List Int := [3277]

/-- An all-zero block: RMS level `0`, below any positive threshold. -/
def silentBlock : List Int := [0]

/-- Block stream of the C1 example: exactly 2 blocks at or above the
silence RMS threshold (100 ms of voiced speech), then silence forever. -/
def exampleStream1 : ℕ → List Int :=
  fun i => if i < 2 then loudBlock else silentBlock

/-- Block stream of the C2 example: 3 silent blocks, 10 loud blocks,
then silence forever. -/
def exampleStream2 : ℕ → List Int :=
  fun i => if i < 3 then silentBlock else if i < 13 then loudBlock else silentBlock

/-- A configuration with a 100 ms hard ceiling (other values default),
used to exhibit the min-speech discard on the max-duration path. -/
def lateVoiceCfg : RecCfg :=
  { samplerate := 16000
    silence_rms := mkRat 8 1000
    min_speech_ms := 400
    silence_ms_to_stop := 1500
    max_ms := 100 }

/-- Stream whose only voiced block arrives right at the max-duration
boundary of `lateVoiceCfg`. -/
def lateVoiceStream : ℕ → List Int :=
  fun i => if i = 1 then loudBlock else silentBlock

/-- The loop state after `n ≥ 1` blocks of an all-voiced stream: voice was
detected on block 0, every block so far is accumulated, and the last
voice timestamp is the current block boundary. -/
def loudState (stream : ℕ → List Int) (n : ℕ) : RecState :=
  { started := true
    last_voice_ts := some (n * block_ms)
    collected := (List.range n).map stream
    speech_ms := n * block_ms }

end Dictation

namespace Dictation

/-! ### Properties of the level detector -/

theorem sumSq_cons (a : Int) (l : List Int) :
    sumSq (a :: l) = a * a + sumSq l := by
  simp [sumSq]

theorem sumSq_nonneg (block : List Int) : 0 ≤ sumSq block := by
  induction block with
  | nil => simp [sumSq]
  | cons a l ih =>
    rw [sumSq_cons]
    exact add_nonneg (mul_self_nonneg a) ih

theorem sum_map_sq_div (block : List Int) :
    (block.map (fun (s : Int) => ((s : ℚ) / 32768) ^ 2)).sum =
      (sumSq block : ℚ) / 32768 ^ 2 := by
  induction block with
  | nil => simp [sumSq]
  | cons a l ih =>
    rw [List.map_cons, List.sum_cons, ih, sumSq_cons]
    push_cast
    field_simp
    ring

theorem rmsSq_nonneg (block : List Int) : 0 ≤ rmsSq block := by
  unfold rmsSq
  split
  · exact le_refl 0
  · apply div_nonneg
    · rw [sum_map_sq_div]
      apply div_nonneg _ (by positivity)
      exact_mod_cast sumSq_nonneg block
    · positivity

theorem rmsSq_eq_sumSq (block : List Int) (hb : block.length ≠ 0) :
    rmsSq block = (sumSq block : ℚ) / (32768 ^ 2 * block.length) := by
  unfold rmsSq
  rw [if_neg hb, sum_map_sq_div, div_div]

end Dictation


namespace Dictation

theorem num_nonpos_iff (q : ℚ) : q.num ≤ 0 ↔ q ≤ 0 := by
  rw [← not_lt, ← not_lt, Rat.num_pos]

/-- Fidelity of the executable voice test: `voiced thr block` is exactly
the source's comparison `silence_rms ≤ rms_level block`. -/
theorem voiced_iff (thr : ℚ) (block : List Int) :
    voiced thr block = true ↔ (thr : ℝ) ≤ rms_level block := by
  have hq : 0 ≤ rmsSq block := rmsSq_nonneg block
  have hr : (0 : ℝ) ≤ ((rmsSq block : ℚ) : ℝ) := by exact_mod_cast hq
  rcases le_or_lt thr 0 with h0 | h0
  · have hnum : thr.num ≤ 0 := (num_nonpos_iff thr).mpr h0
    have hright : (thr : ℝ) ≤ rms_level block :=
      le_trans (by exact_mod_cast h0) (Real.sqrt_nonneg _)
    simp [voiced, hnum, hright]
  · have hnum : ¬ thr.num ≤ 0 := by
      rw [num_nonpos_iff]
      exact not_le.mpr h0
    have hcast : (0 : ℝ) ≤ (thr : ℝ) := by exact_mod_cast h0.le
    have hsqrt : (thr : ℝ) ≤ rms_level block ↔ thr ^ 2 ≤ rmsSq block := by
      rw [rms_level, Real.le_sqrt hcast hr]
      constructor
      · intro h
        exact_mod_cast h
      · intro h
        exact_mod_cast h
    rw [hsqrt]
    rcases Nat.eq_zero_or_pos block.length with hlen | hlen
    · have hempty : rmsSq block = 0 := by
        unfold rmsSq
        rw [if_pos hlen]
      have hnle : ¬ thr ^ 2 ≤ rmsSq block := by
        rw [hempty]
        exact not_le.mpr (by positivity)
      simp [voiced, hnum, hlen, hnle]
    · have hlen' : block.length ≠ 0 := Nat.pos_iff_ne_zero.mp hlen
      rw [rmsSq_eq_sumSq block hlen']
      have hd0 : (0 : ℚ) < (thr.den : ℚ) := by exact_mod_cast thr.den_pos
      have hden : (0 : ℚ) < (thr.den : ℚ) ^ 2 := by positivity
      have hD : (0 : ℚ) < 32768 ^ 2 * (block.length : ℚ) := by positivity
      have hthr : thr = (thr.num : ℚ) / (thr.den : ℚ) := (Rat.num_div_den thr).symm
      have key : thr ^ 2 ≤ (sumSq block : ℚ) / (32768 ^ 2 * block.length) ↔
          (thr.num : ℚ) ^ 2 * (32768 ^ 2 * (block.length : ℚ)) ≤
            (sumSq block : ℚ) * (thr.den : ℚ) ^ 2 := by
        conv_lhs => rw [hthr, div_pow]
        exact div_le_div_iff₀ hden hD
      rw [key]
      simp only [voiced, hnum, decide_False, Bool.false_or, Bool.and_eq_true,
        decide_eq_true_eq]
      constructor
      · intro h
        have h2 := h.2
        have : ((thr.num ^ 2 * (32768 ^ 2 * (block.length : ℤ)) : ℤ) : ℚ) ≤
            (((thr.den : ℤ) ^ 2 * sumSq block : ℤ) : ℚ) := by exact_mod_cast h2
        push_cast at this
        linarith
      · intro h
        refine ⟨hlen, ?_⟩
        have : ((thr.num ^ 2 * (32768 ^ 2 * (block.length : ℤ)) : ℤ) : ℚ) ≤
            (((thr.den : ℤ) ^ 2 * sumSq block : ℤ) : ℚ) := by
          push_cast
          linarith
        exact_mod_cast this

end Dictation

namespace Dictation

/-- C9: for every AudioBlock whose samples are all zero — including the
empty block with zero samples — the RMS level is exactly 0.0. -/
theorem C9_rms_level_zero (block : List Int) (h : ∀ s ∈ block, s = 0) :
    rms_level block = 0 := by
  have hz : rmsSq block = 0 := by
    unfold rmsSq
    split
    · rfl
    · rw [List.sum_eq_zero, zero_div]
      intro x hx
      rcases List.mem_map.mp hx with ⟨s, hs, rfl⟩
      rw [h s hs]
      norm_num
  rw [rms_level, hz]
  simp

/-- Witness for C9 at a concrete all-zero block (and, via the theorem's
vacuous hypothesis case, the empty block). -/
theorem C9_rms_level_zero_witness :
    (∀ s ∈ ([0, 0, 0] : List Int), s = 0) ∧
      rms_level [0, 0, 0] = 0 ∧ rms_level [] = 0 :=
  ⟨by decide, C9_rms_level_zero [0, 0, 0] (by decide),
    C9_rms_level_zero [] (by decide)⟩

/-- C10: for every AudioBlock of samples within the signed 16-bit range,
the RMS level lies in `[0, 1]`: each sample divided by 32768 has magnitude
at most 1, so the mean square is at most 1. -/
theorem C10_rms_level_bounds (block : List Int)
    (h : ∀ s ∈ block, -32768 ≤ s ∧ s ≤ 32767) :
    0 ≤ rms_level block ∧ rms_level block ≤ 1 := by
  refine ⟨Real.sqrt_nonneg _, ?_⟩
  have hle : rmsSq block ≤ 1 := by
    unfold rmsSq
    split
    · norm_num
    · rename_i hlen
      have hn : (0 : ℚ) < (block.length : ℚ) := by
        exact_mod_cast Nat.pos_of_ne_zero hlen
      rw [div_le_one hn]
      have hbound : ∀ x ∈ block.map (fun (s : Int) => ((s : ℚ) / 32768) ^ 2),
          x ≤ 1 := by
        intro x hx
        rcases List.mem_map.mp hx with ⟨s, hs, rfl⟩
        rcases h s hs with ⟨hlo, hhi⟩
        have hlo' : (-32768 : ℚ) ≤ (s : ℚ) := by exact_mod_cast hlo
        have hhi' : (s : ℚ) ≤ 32768 := by
          have : (s : ℚ) ≤ 32767 := by exact_mod_cast hhi
          linarith
        have hsq : (s : ℚ) ^ 2 ≤ 32768 ^ 2 := sq_le_sq' hlo' hhi'
        rw [div_pow]
        rw [div_le_one (by positivity)]
        exact hsq
      calc (block.map (fun (s : Int) => ((s : ℚ) / 32768) ^ 2)).sum
          ≤ (block.map (fun (s : Int) => ((s : ℚ) / 32768) ^ 2)).length • (1 : ℚ) :=
            List.sum_le_card_nsmul _ 1 hbound
        _ = (block.length : ℚ) := by simp
  have hcast : ((rmsSq block : ℚ) : ℝ) ≤ 1 := by exact_mod_cast hle
  calc rms_level block ≤ Real.sqrt 1 := Real.sqrt_le_sqrt hcast
    _ = 1 := Real.sqrt_one

/-- Witness for C10 at a concrete in-range block. -/
theorem C10_rms_level_bounds_witness :
    (∀ s ∈ ([100, -32768, 32767] : List Int), -32768 ≤ s ∧ s ≤ 32767) ∧
      0 ≤ rms_level [100, -32768, 32767] ∧ rms_level [100, -32768, 32767] ≤ 1 :=
  ⟨by decide, C10_rms_level_bounds [100, -32768, 32767] (by decide)⟩

end Dictation

namespace Dictation

/-! ### Push-to-talk stop and the clip encoder -/

/-- C4: an explicit push-to-talk `stop()` on a non-empty accumulator
emits an artifact containing exactly the captured blocks; no
minimum-speech-duration check is applied (the statement imposes no lower
bound on the captured duration). -/
theorem C4_ptt_stop_emits (r : PushToTalkState) (h : r.q ≠ []) :
    (pttStop r).2 = some (encodeWav r.q r.samplerate) := by
  unfold pttStop
  simp [h]

/-- Witness for C4: a single 50 ms block — far below the 400 ms
min-speech threshold — is still emitted by `stop()`. -/
theorem C4_ptt_stop_emits_witness :
    (({ flag := true, q := [[5]], samplerate := 16000 } : PushToTalkState).q ≠ []) ∧
      (pttStop { flag := true, q := [[5]], samplerate := 16000 }).2 =
        some (encodeWav [[5]] 16000) ∧
      1 * block_ms < defaultCfg.min_speech_ms :=
  ⟨by decide,
    C4_ptt_stop_emits { flag := true, q := [[5]], samplerate := 16000 } (by decide),
    by decide⟩

/-- C5: an explicit push-to-talk `stop()` on an empty accumulator returns
the distinguished "nothing captured" value `none`; no artifact is
produced. -/
theorem C5_ptt_stop_empty (r : PushToTalkState) (h : r.q = []) :
    (pttStop r).2 = none := by
  unfold pttStop
  simp [h]

/-- Witness for C5 at a concrete empty-queue recorder state. -/
theorem C5_ptt_stop_empty_witness :
    (({ flag := true, q := [], samplerate := 16000 } : PushToTalkState).q = []) ∧
      (pttStop { flag := true, q := [], samplerate := 16000 }).2 = none :=
  ⟨rfl, C5_ptt_stop_empty { flag := true, q := [], samplerate := 16000 } rfl⟩

/-- C8: encoding an Utterance of `N ≥ 1` blocks concatenates the blocks'
samples in their original order, and decoding the artifact returns
exactly that concatenation at the original sample rate. -/
theorem C8_encode_decode_roundtrip (blocks : List (List Int)) (rate : ℕ)
    (_h : 1 ≤ blocks.length) :
    decodeWav (encodeWav blocks rate) = (blocks.flatten, rate) := rfl

/-- Witness for C8 at a single-block Utterance (`N = 1`). -/
theorem C8_encode_decode_roundtrip_witness :
    1 ≤ ([[1, 2]] : List (List Int)).length ∧
      decodeWav (encodeWav [[1, 2]] 16000) = ([1, 2], 16000) :=
  ⟨by decide, C8_encode_decode_roundtrip [[1, 2]] 16000 (by decide)⟩

end Dictation

namespace Dictation

/-! ### The record_once loop -/

theorem recordIter_started_append (cfg : RecCfg) (block : List Int) (i : ℕ)
    (s : RecState) (h : (recordIter cfg block i s).1.started = true) :
    (recordIter cfg block i s).1.collected = s.collected ++ [block] ∧
      (recordIter cfg block i s).1.speech_ms = s.speech_ms + block_ms := by
  unfold recordIter at *
  by_cases hs : s.started = true <;>
    by_cases hv : voiced cfg.silence_rms block = true <;>
    simp [hs, hv] at h ⊢

theorem recordIter_speech_inv (cfg : RecCfg) (block : List Int) (i : ℕ)
    (s : RecState) (hinv : s.speech_ms = block_ms * s.collected.length) :
    (recordIter cfg block i s).1.speech_ms =
      block_ms * (recordIter cfg block i s).1.collected.length := by
  unfold recordIter
  by_cases hs : s.started = true <;>
    by_cases hv : voiced cfg.silence_rms block = true <;>
    simp [hs, hv, hinv, Nat.mul_succ]

theorem recordLoop_speech_inv (cfg : RecCfg) (stream : ℕ → List Int) :
    ∀ (fuel i : ℕ) (s sf : RecState),
      s.speech_ms = block_ms * s.collected.length →
      recordLoop cfg stream fuel i s = some sf →
      sf.speech_ms = block_ms * sf.collected.length := by
  intro fuel
  induction fuel with
  | zero =>
    intro i s sf _ h
    simp [recordLoop] at h
  | succ n ih =>
    intro i s sf hinv h
    have hstep := recordIter_speech_inv cfg (stream i) i s hinv
    rw [recordLoop] at h
    by_cases hb : (recordIter cfg (stream i) i s).2 = true
    · rw [if_pos hb] at h
      cases h
      exact hstep
    · rw [if_neg hb] at h
      exact ih (i + 1) _ sf hstep h

/-- C6: once voice has been detected, every iteration of the loop appends
the incoming block to the accumulator — whatever its level — and adds
`block_ms` to `speech_ms`; consequently in every state the loop can
terminate in, `speech_ms` equals `block_ms` times the number of
accumulated blocks (silent and synthetic zero blocks counted alike). -/
theorem C6_accumulation :
    (∀ (cfg : RecCfg) (block : List Int) (i : ℕ) (s : RecState),
        (recordIter cfg block i s).1.started = true →
        (recordIter cfg block i s).1.collected = s.collected ++ [block] ∧
          (recordIter cfg block i s).1.speech_ms = s.speech_ms + block_ms) ∧
    (∀ (cfg : RecCfg) (stream : ℕ → List Int) (fuel : ℕ) (sf : RecState),
        recordLoop cfg stream fuel 0 initState = some sf →
        sf.speech_ms = block_ms * sf.collected.length) :=
  ⟨recordIter_started_append,
    fun cfg stream fuel sf h =>
      recordLoop_speech_inv cfg stream fuel 0 initState sf (by simp [initState]) h⟩

/-- Witness for C6: a first voiced block is appended with its 50 ms, and
the final state of a concrete run satisfies the duration invariant. -/
theorem C6_accumulation_witness :
    ((recordIter defaultCfg loudBlock 0 initState).1.started = true ∧
      (recordIter defaultCfg loudBlock 0 initState).1.collected =
        initState.collected ++ [loudBlock] ∧
      (recordIter defaultCfg loudBlock 0 initState).1.speech_ms =
        initState.speech_ms + block_ms) ∧
    (recordLoop lateVoiceCfg lateVoiceStream (recordFuel lateVoiceCfg) 0 initState =
        some ⟨true, some 100, [loudBlock], 50⟩ ∧
      (50 : ℕ) = block_ms * [loudBlock].length) :=
  ⟨⟨by decide, C6_accumulation.1 defaultCfg loudBlock 0 initState (by decide)⟩,
    ⟨by decide,
      C6_accumulation.2 lateVoiceCfg lateVoiceStream (recordFuel lateVoiceCfg)
        ⟨true, some 100, [loudBlock], 50⟩ (by decide)⟩⟩

end Dictation

namespace Dictation

/-- Counterexample to C1 as stated: in the claim's own example — exactly
2 blocks at or above the threshold (100 ms of voiced speech, below
`minSpeechMs = 400`) followed by silence, with `silenceStopMs = 1500` —
`record_once` DOES emit an Utterance (the 2 loud blocks plus the 30
silent blocks accumulated while waiting out the 1500 ms silence window
push `speech_ms` to 1600 ≥ 400). -/
theorem C1_counterexample :
    2 * block_ms < defaultCfg.min_speech_ms ∧
      record_once defaultCfg exampleStream1 =
        some (some { samples := 3277 :: 3277 :: List.replicate 30 0, rate := 16000 }) := by
  decide

/-- C1 (amended): the discard check compares the total accumulated
capture duration (`speech_ms`, which counts every block after voice
onset, silent ones included) against `minSpeechMs`: whenever the loop
ends in a state with `speech_ms < min_speech_ms`, no Utterance is
emitted and `record_once` returns the "nothing captured" result. -/
theorem C1_short_capture_discarded (cfg : RecCfg) (stream : ℕ → List Int)
    (s : RecState)
    (hloop : recordLoop cfg stream (recordFuel cfg) 0 initState = some s)
    (hshort : s.speech_ms < cfg.min_speech_ms) :
    record_once cfg stream = some none := by
  unfold record_once
  rw [hloop]
  simp [finishRecording, hshort]

/-- Witness for C1 (amended): with a 100 ms hard ceiling and voice first
detected on the final block, the loop ends with 50 ms accumulated and
the capture is discarded. -/
theorem C1_short_capture_discarded_witness :
    recordLoop lateVoiceCfg lateVoiceStream (recordFuel lateVoiceCfg) 0 initState =
        some ⟨true, some 100, [loudBlock], 50⟩ ∧
      (⟨true, some 100, [loudBlock], 50⟩ : RecState).speech_ms <
        lateVoiceCfg.min_speech_ms ∧
      record_once lateVoiceCfg lateVoiceStream = some none :=
  ⟨by decide, by decide,
    C1_short_capture_discarded lateVoiceCfg lateVoiceStream
      ⟨true, some 100, [loudBlock], 50⟩ (by decide) (by decide)⟩

/-- Counterexample to C2 as stated: for 3 silent, 10 loud, 40 silent
blocks, the emitted Utterance does not consist of the 10 loud blocks
plus threshold-straddling blocks only — it also contains the 30 strictly
below-threshold silent blocks accumulated during the 1500 ms
silence-stop window (40 samples in total, 30 of them zero). -/
theorem C2_counterexample :
    record_once defaultCfg exampleStream2 =
        some (some { samples := List.replicate 10 3277 ++ List.replicate 30 0,
                     rate := 16000 }) ∧
      voiced defaultCfg.silence_rms silentBlock = false := by
  decide

/-- C2 (amended): for 3 silent, 10 loud, then silent blocks, exactly one
Utterance is emitted; it contains the 10 loud blocks followed by the 30
silent blocks of the silence-stop window (the 3 leading silent blocks are
excluded), and its accumulated duration 2000 ms is at least
`minSpeechMs = 400`. -/
theorem C2_emission :
    recordLoop defaultCfg exampleStream2 (recordFuel defaultCfg) 0 initState =
        some ⟨true, some 650,
          List.replicate 10 loudBlock ++ List.replicate 30 silentBlock, 2000⟩ ∧
      record_once defaultCfg exampleStream2 =
        some (some { samples := List.replicate 10 3277 ++ List.replicate 30 0,
                     rate := 16000 }) ∧
      defaultCfg.min_speech_ms ≤ 2000 := by
  decide

end Dictation

namespace Dictation

theorem recordIter_loud_init (stream : ℕ → List Int)
    (h : voiced defaultCfg.silence_rms (stream 0) = true) :
    recordIter defaultCfg (stream 0) 0 initState = (loudState stream 1, false) := by
  have h' : voiced (mkRat 8 1000) (stream 0) = true := h
  unfold recordIter initState loudState
  simp [h', defaultCfg, block_ms, List.range_succ]

theorem recordIter_loud (stream : ℕ → List Int) (i : ℕ)
    (h : voiced defaultCfg.silence_rms (stream i) = true) :
    recordIter defaultCfg (stream i) i (loudState stream i) =
      (loudState stream (i + 1), decide (20000 ≤ (i + 1) * block_ms)) := by
  have h' : voiced (mkRat 8 1000) (stream i) = true := h
  unfold recordIter loudState
  simp [h', defaultCfg, List.range_succ, Nat.succ_mul]

theorem recordLoop_loud (stream : ℕ → List Int)
    (h : ∀ i, voiced defaultCfg.silence_rms (stream i) = true) :
    ∀ (fuel i : ℕ), 1 ≤ i → i ≤ 399 → 399 ≤ i + fuel →
      recordLoop defaultCfg stream (fuel + 1) i (loudState stream i) =
        some (loudState stream 400) := by
  intro fuel
  induction fuel with
  | zero =>
    intro i h1 h2 h3
    have hi : i = 399 := by omega
    subst hi
    rw [recordLoop, recordIter_loud stream 399 (h 399)]
    norm_num [block_ms]
  | succ n ih =>
    intro i h1 h2 h3
    by_cases hi : i = 399
    · subst hi
      rw [recordLoop, recordIter_loud stream 399 (h 399)]
      norm_num [block_ms]
    · have hlt : ¬ (20000 ≤ (i + 1) * block_ms) := by
        simp only [block_ms]
        omega
      rw [recordLoop, recordIter_loud stream i (h i)]
      simp only [decide_eq_false hlt, if_neg]
      exact ih (i + 1) (by omega) (by omega) (by omega)

/-- C3: for every input stream whose blocks are all at or above the
silence RMS threshold (silence is never detected), the loop stops at the
400th block boundary — where elapsed time first reaches
`maxDurationMs = 20000` with 50 ms blocks — and forcibly emits the
accumulated Utterance of exactly the first 400 blocks. -/
theorem C3_max_duration_emit (stream : ℕ → List Int)
    (h : ∀ i, voiced defaultCfg.silence_rms (stream i) = true) :
    recordLoop defaultCfg stream (recordFuel defaultCfg) 0 initState =
        some ⟨true, some 20000, (List.range 400).map stream, 20000⟩ ∧
      record_once defaultCfg stream =
        some (some (encodeWav ((List.range 400).map stream) defaultCfg.samplerate)) := by
  have hloop : recordLoop defaultCfg stream (recordFuel defaultCfg) 0 initState =
      some (loudState stream 400) := by
    show recordLoop defaultCfg stream (400 + 1) 0 initState = _
    rw [recordLoop, recordIter_loud_init stream (h 0)]
    simp only [if_neg, Bool.false_eq_true, not_false_iff]
    exact recordLoop_loud stream h 399 1 (by omega) (by omega) (by omega)
  have hstate : loudState stream 400 =
      (⟨true, some 20000, (List.range 400).map stream, 20000⟩ : RecState) := by
    unfold loudState
    norm_num [block_ms]
  constructor
  · rw [hloop, hstate]
  · unfold record_once
    rw [hloop, hstate]
    have hne : (List.range 400).map stream ≠ [] := by simp
    have hmin : ¬ ((20000 : ℕ) < defaultCfg.min_speech_ms) := by decide
    simp [finishRecording, hne, hmin]

set_option maxRecDepth 10000 in
/-- Witness for C3: the constant all-loud stream yields the forced
emission of 400 blocks (20000 ms) at the max-duration boundary. -/
theorem C3_max_duration_emit_witness :
    (∀ i : ℕ, voiced defaultCfg.silence_rms ((fun _ => loudBlock) i) = true) ∧
      record_once defaultCfg (fun _ => loudBlock) =
        some (some { samples := List.replicate 400 3277, rate := 16000 }) := by
  have hv : ∀ i : ℕ, voiced defaultCfg.silence_rms ((fun _ => loudBlock) i) = true :=
    fun _ => (by decide : voiced defaultCfg.silence_rms loudBlock = true)
  refine ⟨hv, ?_⟩
  rw [(C3_max_duration_emit (fun _ => loudBlock) hv).2]
  decide

end Dictation

namespace Dictation

/-- C7: every emitted Utterance is non-empty.  If the voice-triggered
loop's emission decision produces an artifact, the accumulator was
non-empty, and an empty accumulator always yields "nothing captured";
likewise push-to-talk `stop()` emits only from a non-empty queue and
returns `none` on an empty one. -/
theorem C7_emitted_nonempty :
    (∀ (cfg : RecCfg) (stream : ℕ → List Int) (s : RecState) (w : Wav),
        recordLoop cfg stream (recordFuel cfg) 0 initState = some s →
        record_once cfg stream = some (some w) → s.collected ≠ []) ∧
    (∀ (cfg : RecCfg) (s : RecState) (w : Wav),
        finishRecording cfg s = some w → s.collected ≠ []) ∧
    (∀ (cfg : RecCfg) (s : RecState), s.collected = [] →
        finishRecording cfg s = none) ∧
    (∀ (r : PushToTalkState) (w : Wav), (pttStop r).2 = some w → r.q ≠ []) ∧
    (∀ (r : PushToTalkState), r.q = [] → (pttStop r).2 = none) := by
  have hfin : ∀ (cfg : RecCfg) (s : RecState) (w : Wav),
      finishRecording cfg s = some w → s.collected ≠ [] := by
    intro cfg s w hw hnil
    rw [finishRecording, if_pos (Or.inl hnil)] at hw
    exact Option.noConfusion hw
  refine ⟨?_, hfin, ?_, ?_, ?_⟩
  · intro cfg stream s w hloop honce
    unfold record_once at honce
    rw [hloop] at honce
    simp only [Option.map_some', Option.some.injEq] at honce
    exact hfin cfg s w honce
  · intro cfg s h
    simp [finishRecording, h]
  · intro r w hw hq
    simp [pttStop, hq] at hw
  · intro r h
    simp [pttStop, h]

/-- Witness for C7: emission from the C1 example stream comes from a
non-empty accumulator; empty states and queues yield `none`. -/
theorem C7_emitted_nonempty_witness :
    (⟨true, some 100, [loudBlock, loudBlock] ++ List.replicate 30 silentBlock,
        1600⟩ : RecState).collected ≠ [] ∧
      finishRecording defaultCfg initState = none ∧
      (({ flag := true, q := [[5]], samplerate := 16000 } : PushToTalkState).q ≠ []) ∧
      (pttStop { flag := false, q := [], samplerate := 16000 }).2 = none :=
  ⟨C7_emitted_nonempty.1 defaultCfg exampleStream1
      ⟨true, some 100, [loudBlock, loudBlock] ++ List.replicate 30 silentBlock, 1600⟩
      ⟨3277 :: 3277 :: List.replicate 30 0, 16000⟩ (by decide) (by decide),
    C7_emitted_nonempty.2.2.1 defaultCfg initState rfl,
    C7_emitted_nonempty.2.2.2.1 { flag := true, q := [[5]], samplerate := 16000 }
      (encodeWav [[5]] 16000) (by decide),
    C7_emitted_nonempty.2.2.2.2 { flag := false, q := [], samplerate := 16000 } rfl⟩

end Dictation
